import Mathlib

/-!
Verification development for the Chatterbox WhatsApp-clone backend.

The definitions below are shallow embeddings of the backend's data model and
operation handlers:

* `Message` together with `markAsDelivered`, `markAsRead` and the pre-save
  hook embed the message schema of models/Chat.js (second half of the file).
* `Call` together with `answerCall`, `endCall`, `rejectCall`, `missCall`,
  the pre-validate hook and `getActiveCall` embed models/Call.js.
* `restInitiateCall`, `restAnswerCall`, `restEndCall` embed the REST call
  route handlers (routes/README_BACKEND_ENDPOINTS.md, the calls router).
* `CHState` with `chAuthenticate`, `chInitiateCall`, `chAnswerCall`,
  `chDisconnect` embed the socket callHandler module.
* `SHWorld` with `shAuthenticate`, `shJoinChat`, `shLeaveChat`,
  `shSendMessage`, `shMessageDelivered`, `shMessageRead`, `shTypingStart`,
  `shTypingStop`, `shDisconnect` embed the socketHandler module.

JavaScript `Map` objects keyed by user/call id are embedded as association
lists with `mapGet` / `mapSet` / `mapDel`; `Date` values are integers
(milliseconds), so `Date` subtraction and `Math.floor(x / 1000)` become
integer subtraction and `Int.fdiv`.
-/

namespace Chatterbox

abbrev UserId := Nat
abbrev SocketId := Nat
abbrev CallId := Nat
abbrev ChatId := Nat
abbrev MessageId := Nat
abbrev Time := Int

/-! ### Association-list embedding of JavaScript `Map` -/

/-- Lookup in a JS `Map` (`m.get(k)`). -/
def mapGet {α β : Type} [DecidableEq α] (m : List (α × β)) (k : α) : Option β :=
  (m.find? (fun p => decide (p.1 = k))).map Prod.snd

/-- Update in a JS `Map` (`m.set(k, v)`): overwrite in place, else append. -/
def mapSet {α β : Type} [DecidableEq α] : List (α × β) → α → β → List (α × β)
  | [], k, v => [(k, v)]
  | p :: rest, k, v => if p.1 = k then (k, v) :: rest else p :: mapSet rest k v

/-- Deletion in a JS `Map` (`m.delete(k)`). -/
def mapDel {α β : Type} [DecidableEq α] (m : List (α × β)) (k : α) : List (α × β) :=
  m.filter (fun p => decide (p.1 ≠ k))

theorem mapGet_nil {α β : Type} [DecidableEq α] (k : α) :
    mapGet ([] : List (α × β)) k = none := rfl

theorem mapGet_cons {α β : Type} [DecidableEq α] (p : α × β) (rest : List (α × β)) (k : α) :
    mapGet (p :: rest) k = if p.1 = k then some p.2 else mapGet rest k := by
  by_cases h : p.1 = k <;> simp [mapGet, List.find?, h]

theorem mapDel_cons {α β : Type} [DecidableEq α] (p : α × β) (rest : List (α × β)) (k : α) :
    mapDel (p :: rest) k = if p.1 = k then mapDel rest k else p :: mapDel rest k := by
  by_cases h : p.1 = k <;> simp [mapDel, List.filter, h]

theorem mapGet_mapSet_self {α β : Type} [DecidableEq α] (m : List (α × β)) (k : α) (v : β) :
    mapGet (mapSet m k v) k = some v := by
  induction m with
  | nil => simp [mapGet, mapSet]
  | cons p rest ih =>
    by_cases h : p.1 = k
    · simp [mapSet, h, mapGet_cons]
    · simp [mapSet, h, mapGet_cons, ih]

theorem mapGet_mapSet_ne {α β : Type} [DecidableEq α] (m : List (α × β)) (k k2 : α) (v : β)
    (h : k2 ≠ k) : mapGet (mapSet m k v) k2 = mapGet m k2 := by
  induction m with
  | nil => simp [mapSet, mapGet_cons, mapGet_nil, Ne.symm h]
  | cons p rest ih =>
    by_cases hp : p.1 = k
    · subst hp
      have hne : ¬ (p.1 = k2) := fun hh => h (hh ▸ rfl)
      simp [mapSet, mapGet_cons, hne, Ne.symm h]
    · simp [mapSet, hp, mapGet_cons, ih]

theorem mapGet_mapDel_self {α β : Type} [DecidableEq α] (m : List (α × β)) (k : α) :
    mapGet (mapDel m k) k = none := by
  induction m with
  | nil => simp [mapGet, mapDel]
  | cons p rest ih =>
    by_cases h : p.1 = k
    · simp [mapDel_cons, h, ih]
    · simp [mapDel_cons, h, mapGet_cons, ih]

theorem mapGet_mapDel_ne {α β : Type} [DecidableEq α] (m : List (α × β)) (k k2 : α)
    (h : k2 ≠ k) : mapGet (mapDel m k) k2 = mapGet m k2 := by
  induction m with
  | nil => simp [mapGet, mapDel]
  | cons p rest ih =>
    by_cases hp : p.1 = k
    · subst hp
      have hne : ¬ (p.1 = k2) := fun hh => h (hh ▸ rfl)
      simp [mapDel_cons, mapGet_cons, hne, ih]
    · simp [mapDel_cons, hp, mapGet_cons, ih]

/-- A JS set-like insertion: used for `$addToSet` (full-element equality). -/
def addToSet {α : Type} [DecidableEq α] (l : List α) (e : α) : List α :=
  if e ∈ l then l else l ++ [e]

/-! ### Message model (models/Chat.js, messageSchema) -/

/-- Message lifecycle status enum of the message schema. -/
inductive MessageStatus
  | sending
  | sent
  | delivered
  | read
deriving DecidableEq

/-- Numeric order of the status ladder sending < sent < delivered < read. -/
def MessageStatus.rank : MessageStatus → Nat
  | .sending => 0
  | .sent => 1
  | .delivered => 2
  | .read => 3

/-- Message type enum of the message schema. -/
inductive MessageType
  | text
  | image
  | video
  | audio
  | document
  | location
  | contact
  | sticker
deriving DecidableEq

/-- One entry of the deliveredTo / readBy arrays: user plus timestamp. -/
structure Ack where
  user : UserId
  ackAt : Time
deriving DecidableEq

/-- The message document (fields used by the handlers under verification). -/
structure Message where
  chat : ChatId
  sender : UserId
  type : MessageType
  text : Option String
  mediaUrl : Option (Option String)
  status : MessageStatus
  deliveredTo : List Ack
  readBy : List Ack
  isDeleted : Bool
deriving DecidableEq

/-- messageSchema.methods.markAsDelivered: push the user with a timestamp
unless already present; advance status sent → delivered on first delivery. -/
def Message.markAsDelivered (now : Time) (userId : UserId) (m : Message) : Message :=
  if m.deliveredTo.any (fun d => decide (d.user = userId)) then m
  else
    { m with
      deliveredTo := m.deliveredTo ++ [⟨userId, now⟩]
      status := if m.status = .sent then .delivered else m.status }

/-- messageSchema.methods.markAsRead: push the user with a timestamp unless
already present; set status to read on first read by this user. -/
def Message.markAsRead (now : Time) (userId : UserId) (m : Message) : Message :=
  if m.readBy.any (fun r => decide (r.user = userId)) then m
  else
    { m with
      readBy := m.readBy ++ [⟨userId, now⟩]
      status := .read }

/-- messageSchema.pre save hook: a new document still in sending moves to sent. -/
def Message.preSave (isNew : Bool) (m : Message) : Message :=
  if isNew ∧ m.status = .sending then { m with status := .sent } else m

/-- The raw readBy update performed by the socketHandler message_read handler:
an $addToSet of an element carrying a fresh timestamp, compared by
whole-element equality. -/
def rawReadUpdate (now : Time) (userId : UserId) (m : Message) : Message :=
  { m with readBy := addToSet m.readBy ⟨userId, now⟩ }

/-- The raw deliveredTo update performed by the socketHandler
message_delivered handler, modelled with the same $addToSet semantics. -/
def rawDeliveredUpdate (now : Time) (userId : UserId) (m : Message) : Message :=
  { m with deliveredTo := addToSet m.deliveredTo ⟨userId, now⟩ }

/-- Operations that touch a message status: save plus the two ack markers. -/
inductive MsgOp
  | save (isNew : Bool)
  | markDelivered (u : UserId) (t : Time)
  | markRead (u : UserId) (t : Time)
deriving DecidableEq

def applyMsgOp (m : Message) (op : MsgOp) : Message :=
  match op with
  | .save isNew => m.preSave isNew
  | .markDelivered u t => m.markAsDelivered t u
  | .markRead u t => m.markAsRead t u

def applyMsgOps (m : Message) (ops : List MsgOp) : Message :=
  ops.foldl applyMsgOp m

/-- Number of times a user occurs in an ack array. -/
def countAck (u : UserId) (l : List Ack) : Nat :=
  (l.filter (fun a => decide (a.user = u))).length

/-! ### Call model (models/Call.js) -/

inductive CallStatus
  | initiating
  | ringing
  | answered
  | ended
  | missed
  | rejected
deriving DecidableEq

/-- The statuses treated as in-flight by getActiveCall. -/
def CallStatus.nonTerminal : CallStatus → Bool
  | .initiating => true
  | .ringing => true
  | .answered => true
  | _ => false

inductive CallType
  | voice
  | video
deriving DecidableEq

/-- The call document (fields used by the handlers under verification). -/
structure Call where
  caller : UserId
  receiver : UserId
  type : CallType
  status : CallStatus
  startTime : Time
  answerTime : Option Time
  endTime : Option Time
  duration : Int
  linkToken : Option Nat
  isActive : Bool
deriving DecidableEq

/-- callSchema.methods.answerCall. -/
def Call.answerCall (now : Time) (c : Call) : Call :=
  { c with status := .answered, answerTime := some now }

/-- callSchema.methods.endCall: stamp endTime and derive the duration in
seconds from the answer-to-end delta when the call was answered. -/
def Call.endCall (now : Time) (c : Call) : Call :=
  match c.answerTime with
  | some a =>
      { c with status := .ended, endTime := some now, duration := (now - a).fdiv 1000 }
  | none => { c with status := .ended, endTime := some now }

/-- callSchema.methods.rejectCall. -/
def Call.rejectCall (now : Time) (c : Call) : Call :=
  { c with status := .rejected, endTime := some now }

/-- callSchema.methods.missCall. -/
def Call.missCall (now : Time) (c : Call) : Call :=
  { c with status := .missed, endTime := some now }

/-- callSchema pre validate hook: generate the shareable-link token when the
document has none (the shareableLink string is derived from this token). -/
def Call.preValidate (freshToken : Nat) (c : Call) : Call :=
  if c.linkToken = none then { c with linkToken := some freshToken } else c

/-- The persisted call collection, keyed by call id. -/
abbrev CallDb := List (CallId × Call)

/-- Call.findById embedded over the collection. -/
def dbFind (db : CallDb) (callId : CallId) : Option Call :=
  mapGet db callId

/-- Persisting a save of a found document back into the collection. -/
def dbReplace (db : CallDb) (callId : CallId) (c : Call) : CallDb :=
  db.map (fun p => if p.1 = callId then (p.1, c) else p)

/-- callSchema.statics.getActiveCall: first call where the user is caller or
receiver, status in the non-terminal set, and the record is active. -/
def getActiveCall (db : CallDb) (userId : UserId) : Option (CallId × Call) :=
  db.find? (fun p =>
    (decide (p.2.caller = userId) || decide (p.2.receiver = userId))
    && p.2.status.nonTerminal && p.2.isActive)

/-- The calls a user is party to that are non-terminal and active. -/
def activeCallsFor (db : CallDb) (u : UserId) : CallDb :=
  db.filter (fun p =>
    (decide (p.2.caller = u) || decide (p.2.receiver = u))
    && p.2.status.nonTerminal && p.2.isActive)

/-- The busy invariant: at most one non-terminal call per user. -/
def atMostOneActive (db : CallDb) : Prop :=
  ∀ u : UserId, (activeCallsFor db u).length ≤ 1

theorem getActiveCall_eq_none_iff (db : CallDb) (u : UserId) :
    getActiveCall db u = none ↔ activeCallsFor db u = [] := by
  simp [getActiveCall, activeCallsFor, List.find?_eq_none, List.filter_eq_nil_iff]

/-! ### REST call routes (the calls router of routes/README_BACKEND_ENDPOINTS.md) -/

/-- Failure responses of POST /api/calls/initiate. -/
inductive InitiateError
  | selfCall
  | receiverNotFound
  | callerBusy
  | receiverBusy
deriving DecidableEq

/-- The user collection restricted to the field the route reads: isActive. -/
abbrev UserDb := List (UserId × Bool)

/-- POST /api/calls/initiate: self-call check, receiver existence/activity
check, then the two getActiveCall busy checks; on success a call is created
with status initiating and a link token from the pre-validate hook. -/
def restInitiateCall (users : UserDb) (db : CallDb) (freshId : CallId)
    (freshToken : Nat) (now : Time) (callerId receiverId : UserId) (ty : CallType) :
    Except InitiateError (CallDb × Call) :=
  if callerId = receiverId then .error .selfCall
  else
    match mapGet users receiverId with
    | none => .error .receiverNotFound
    | some receiverIsActive =>
      if ¬ receiverIsActive then .error .receiverNotFound
      else if (getActiveCall db callerId).isSome then .error .callerBusy
      else if (getActiveCall db receiverId).isSome then .error .receiverBusy
      else
        let call : Call := Call.preValidate freshToken
          { caller := callerId, receiver := receiverId, type := ty
            status := .initiating, startTime := now, answerTime := none
            endTime := none, duration := 0, linkToken := none, isActive := true }
        .ok (db ++ [(freshId, call)], call)

/-- Failure responses of POST /api/calls/:callId/answer. -/
inductive AnswerError
  | notFound
  | notYourCall
  | invalidState
deriving DecidableEq

/-- POST /api/calls/:callId/answer: 404 when the call is unknown, 403 unless
the requester is the receiver, 400 unless the status is ringing; otherwise
answerCall is persisted. -/
def restAnswerCall (db : CallDb) (now : Time) (callId : CallId) (userId : UserId) :
    Except AnswerError CallDb :=
  match dbFind db callId with
  | none => .error .notFound
  | some call =>
    if call.receiver ≠ userId then .error .notYourCall
    else if call.status ≠ .ringing then .error .invalidState
    else .ok (dbReplace db callId (call.answerCall now))

/-- Failure responses of POST /api/calls/:callId/end. -/
inductive EndError
  | notFound
  | notParticipant
  | alreadyEnded
deriving DecidableEq

/-- POST /api/calls/:callId/end: participant check, terminal-status check,
then endCall is persisted. -/
def restEndCall (db : CallDb) (now : Time) (callId : CallId) (userId : UserId) :
    Except EndError CallDb :=
  match dbFind db callId with
  | none => .error .notFound
  | some call =>
    if call.caller ≠ userId ∧ call.receiver ≠ userId then .error .notParticipant
    else if call.status = .ended ∨ call.status = .missed ∨ call.status = .rejected then
      .error .alreadyEnded
    else .ok (dbReplace db callId (call.endCall now))

/-! ### Socket call handler (the callHandler module) -/

/-- Decoded JWT payload: the embedded user identity. -/
structure TokenPayload where
  userId : UserId
deriving DecidableEq

/-- The per-call entry of the in-memory activeCalls map. -/
structure CallInfo where
  callerSocket : SocketId
  receiverSocket : SocketId
deriving DecidableEq

/-- In-memory state of the callHandler, plus the persisted collections the
handlers read and write. -/
structure CHState where
  userSockets : List (UserId × SocketId)
  activeCalls : List (CallId × CallInfo)
  calls : CallDb
  usersOnline : List (UserId × Bool)
deriving DecidableEq

/-- Events emitted by the callHandler. -/
inductive CHEvent
  | authError (toSocket : SocketId) (msg : String)
  | authenticated (toSocket : SocketId)
  | userOnline (userId : UserId)
  | userOffline (userId : UserId)
  | callError (toSocket : SocketId) (msg : String)
  | incomingCall (toSocket : SocketId) (callId : CallId)
  | callInitiated (toSocket : SocketId) (callId : CallId)
  | callAnswered (toSocket : SocketId) (callId : CallId)
  | callConnected (toSocket : SocketId) (callId : CallId)
  | callEnded (toSocket : SocketId) (callId : CallId) (reason : Option String)
deriving DecidableEq

/-- The authenticate handler of the callHandler: token checks, then record
the (single-valued) user-to-socket mapping, mark the user online, emit the
acknowledgment and the global presence broadcast. Returns the new state, the
identity bound to the socket, and the emitted events. -/
def chAuthenticate (st : CHState) (socketId : SocketId) (userId : UserId)
    (token : Option String) (verify : String → Option TokenPayload) :
    CHState × Option UserId × List CHEvent :=
  match token with
  | none => (st, none, [.authError socketId "Token required"])
  | some t =>
    match verify t with
    | none => (st, none, [.authError socketId "Invalid token"])
    | some decoded =>
      if decoded.userId ≠ userId then
        (st, none, [.authError socketId "Token does not match user"])
      else
        ({ st with
            userSockets := mapSet st.userSockets userId socketId
            usersOnline := mapSet st.usersOnline userId true },
         some userId,
         [.authenticated socketId, .userOnline userId])

/-- The initiate_call handler: authentication guard, receiver-online guard
(offline receivers fail with a call error), then a call record is created
directly in status ringing, registered in activeCalls, and both parties are
signalled. No busy check is performed. -/
def chInitiateCall (st : CHState) (socketId : SocketId) (socketUserId : Option UserId)
    (receiverId : UserId) (ty : CallType) (freshId : CallId) (freshToken : Nat)
    (now : Time) : CHState × List CHEvent :=
  match socketUserId with
  | none => (st, [.callError socketId "User not authenticated"])
  | some callerId =>
    match mapGet st.userSockets receiverId with
    | none => (st, [.callError socketId "User is offline"])
    | some receiverSocketId =>
      let call : Call := Call.preValidate freshToken
        { caller := callerId, receiver := receiverId, type := ty
          status := .ringing, startTime := now, answerTime := none
          endTime := none, duration := 0, linkToken := none, isActive := true }
      ({ st with
          calls := st.calls ++ [(freshId, call)]
          activeCalls := mapSet st.activeCalls freshId ⟨socketId, receiverSocketId⟩ },
       [.incomingCall receiverSocketId freshId, .callInitiated socketId freshId])

/-- The answer_call handler: looks the call up in activeCalls and in the
collection and then unconditionally applies answerCall — no check that the
acting socket is the receiver and no check of the current status. -/
def chAnswerCall (st : CHState) (socketId : SocketId) (callId : CallId) (now : Time) :
    CHState × List CHEvent :=
  match mapGet st.activeCalls callId with
  | none => (st, [.callError socketId "Call not found"])
  | some info =>
    match mapGet st.calls callId with
    | none => (st, [.callError socketId "Call not found"])
    | some call =>
      ({ st with calls := mapSet st.calls callId (call.answerCall now) },
       [.callAnswered info.callerSocket callId, .callConnected socketId callId])

/-- One iteration of the disconnect cleanup loop of the callHandler: for an
activeCalls entry whose caller or receiver socket is the disconnecting one,
persist endCall only when the stored status is answered, notify the other
socket, and drop the entry from activeCalls. -/
def chDisconnectStep (now : Time) (socketId : SocketId)
    (acc : CHState × List CHEvent) (entry : CallId × CallInfo) :
    CHState × List CHEvent :=
  if entry.2.callerSocket = socketId ∨ entry.2.receiverSocket = socketId then
    let st := acc.1
    let st1 : CHState :=
      match mapGet st.calls entry.1 with
      | some call =>
          if call.status = CallStatus.answered then
            { st with calls := mapSet st.calls entry.1 (call.endCall now) }
          else st
      | none => st
    let target : SocketId :=
      if entry.2.callerSocket = socketId then entry.2.receiverSocket
      else entry.2.callerSocket
    ({ st1 with activeCalls := mapDel st1.activeCalls entry.1 },
     acc.2 ++ [CHEvent.callEnded target entry.1 (some "User disconnected")])
  else acc

/-- The disconnect handler of the callHandler: drop the user-to-socket
mapping, mark the user offline, run the cleanup loop over the activeCalls
entries, and broadcast the presence change. -/
def chDisconnect (st : CHState) (socketId : SocketId) (socketUserId : Option UserId)
    (now : Time) : CHState × List CHEvent :=
  match socketUserId with
  | none => (st, [])
  | some userId =>
    let st0 : CHState :=
      { st with
          userSockets := mapDel st.userSockets userId
          usersOnline := mapSet st.usersOnline userId false }
    let res := st.activeCalls.foldl (chDisconnectStep now socketId) (st0, [])
    (res.1, res.2 ++ [.userOffline userId])

/-! ### Media upload helper (socketHandler saveMediaFile) -/

/-- The character class kept by the filename sanitizer regex. -/
def allowedChar (c : Char) : Bool :=
  decide ('a' ≤ c ∧ c ≤ 'z') || decide ('A' ≤ c ∧ c ≤ 'Z') ||
  decide ('0' ≤ c ∧ c ≤ '9') || decide (c = '_') || decide (c = '-') || decide (c = '.')

/-- filename.replace of every character outside the class with an underscore. -/
def sanitizeFilename (s : String) : String :=
  String.mk (s.data.map (fun c => if allowedChar c then c else '_'))

/-- saveMediaFile: sanitize the client filename, write the decoded buffer
under the uploads directory through the filesystem (a fallible collaborator),
and return the public /uploads path; any thrown filesystem error is caught
and surfaced as null. -/
def saveMediaFile (fsWrite : String → String → Option Unit)
    (filename base64Buffer : String) : Option String :=
  let safeName := sanitizeFilename filename
  let filePath := "uploads/" ++ safeName
  match fsWrite filePath base64Buffer with
  | none => none
  | some _ => some ("/uploads/" ++ safeName)

/-! ### Socket handler (the socketHandler module) -/

/-- Chat document fields used by the socketHandler. -/
structure ChatDoc where
  participants : List (UserId × Bool)
  lastMessage : Option MessageId
  isActive : Bool
  updatedAt : Time
deriving DecidableEq

/-- Where an emission goes: the originating socket, a chat room excluding
the origin, a specific socket id, or everyone but the origin. -/
inductive SHTarget
  | origin
  | room (c : ChatId)
  | socket (s : SocketId)
  | broadcast
deriving DecidableEq

/-- An emission of the socketHandler: a target and an event name. -/
structure SHEvent where
  target : SHTarget
  name : String
deriving DecidableEq

/-- In-memory state of the socketHandler (userSockets, userChats, the rooms
each socket joined) plus the persisted collections its handlers touch. -/
structure SHWorld where
  userSockets : List (UserId × SocketId)
  userChats : List (UserId × List ChatId)
  rooms : List (SocketId × List ChatId)
  chats : List (ChatId × ChatDoc)
  messages : List (MessageId × Message)
  usersOnline : List (UserId × Bool)
deriving DecidableEq

/-- socket.join: add the chat id to the rooms the socket belongs to. -/
def roomJoin (rooms : List (SocketId × List ChatId)) (s : SocketId) (c : ChatId) :
    List (SocketId × List ChatId) :=
  match mapGet rooms s with
  | none => mapSet rooms s [c]
  | some l => mapSet rooms s (addToSet l c)

/-- socket.leave: remove the chat id from the rooms the socket belongs to. -/
def roomLeave (rooms : List (SocketId × List ChatId)) (s : SocketId) (c : ChatId) :
    List (SocketId × List ChatId) :=
  match mapGet rooms s with
  | none => rooms
  | some l => mapSet rooms s (l.filter (fun x => decide (x ≠ c)))

/-- The Chat.find query of joinUserChats: chats where some participant entry
has this user, some participant entry is active, and the chat is active. -/
def userActiveChatIds (chats : List (ChatId × ChatDoc)) (u : UserId) : List ChatId :=
  (chats.filter (fun p =>
    p.2.participants.any (fun q => decide (q.1 = u))
    && p.2.participants.any (fun q => q.2)
    && p.2.isActive)).map Prod.fst

/-- The authenticate handler of the socketHandler: token checks, then record
the (single-valued) user-to-socket mapping, mark the user online, join the
socket to all of the user's chats, and emit presence plus acknowledgment. -/
def shAuthenticate (w : SHWorld) (socketId : SocketId) (userId : UserId)
    (token : Option String) (verify : String → Option TokenPayload) :
    SHWorld × Option UserId × List SHEvent :=
  match token with
  | none => (w, none, [⟨.origin, "authentication_error"⟩])
  | some t =>
    match verify t with
    | none => (w, none, [⟨.origin, "authentication_error"⟩])
    | some decoded =>
      if decoded.userId ≠ userId then (w, none, [⟨.origin, "authentication_error"⟩])
      else
        let ids := userActiveChatIds w.chats userId
        let w1 : SHWorld :=
          { w with
              userSockets := mapSet w.userSockets userId socketId
              usersOnline := mapSet w.usersOnline userId true
              rooms := ids.foldl (fun r c => roomJoin r socketId c) w.rooms
              userChats := mapSet w.userChats userId ids }
        (w1, some userId, [⟨.broadcast, "user_online"⟩, ⟨.origin, "authenticated"⟩])

/-- The join_chat handler: unauthenticated sockets get join_error and nothing
changes; otherwise the socket joins the room and userChats records the id. -/
def shJoinChat (w : SHWorld) (socketId : SocketId) (auth : Option UserId)
    (chatId : Option ChatId) : SHWorld × List SHEvent :=
  match auth with
  | none => (w, [⟨.origin, "join_error"⟩])
  | some userId =>
    match chatId with
    | none => (w, [])
    | some cid =>
      let base : List ChatId :=
        match mapGet w.userChats userId with
        | none => []
        | some l => l
      ({ w with
          rooms := roomJoin w.rooms socketId cid
          userChats := mapSet w.userChats userId (addToSet base cid) },
       [])

/-- The leave_chat handler: silent no-op unless authenticated with a chat id. -/
def shLeaveChat (w : SHWorld) (socketId : SocketId) (auth : Option UserId)
    (chatId : Option ChatId) : SHWorld × List SHEvent :=
  match auth, chatId with
  | some userId, some cid =>
      let w1 : SHWorld := { w with rooms := roomLeave w.rooms socketId cid }
      (match mapGet w1.userChats userId with
       | none => (w1, [])
       | some l =>
          ({ w1 with
              userChats := mapSet w1.userChats userId
                (l.filter (fun x => decide (x ≠ cid))) }, []))
  | _, _ => (w, [])

/-- The send_message handler: authentication guard, chat lookup (falling back
to finding or creating the private chat with the receiver), participant
check, message persistence with the pre-save hook, last-message update on the
chat, then fan-out to the room and acknowledgment to the sender. -/
def shSendMessage (w : SHWorld) (socketId : SocketId) (auth : Option UserId)
    (chatId : Option ChatId) (content : Option String) (ty : MessageType)
    (media : Option (String × String)) (receiverId : Option UserId)
    (freshMsgId : MessageId) (freshChatId : ChatId) (now : Time)
    (fsWrite : String → String → Option Unit) : SHWorld × List SHEvent :=
  match auth with
  | none => (w, [⟨.origin, "message_error"⟩])
  | some senderId =>
    let found : Option (ChatId × ChatDoc) :=
      match chatId with
      | none => none
      | some cid => (mapGet w.chats cid).map (fun c => (cid, c))
    let step : Option (SHWorld × ChatId × ChatDoc) :=
      match found with
      | some (cid, c) => some (w, cid, c)
      | none =>
        match receiverId with
        | none => none
        | some rid =>
          match w.chats.find? (fun p =>
              p.2.isActive
              && p.2.participants.any (fun q => decide (q.1 = senderId) && q.2)
              && p.2.participants.any (fun q => decide (q.1 = rid) && q.2)) with
          | some (cid, c) => some (w, cid, c)
          | none =>
            let c : ChatDoc :=
              { participants := [(senderId, true), (rid, true)]
                lastMessage := none, isActive := true, updatedAt := now }
            some ({ w with chats := mapSet w.chats freshChatId c }, freshChatId, c)
    match step with
    | none => (w, [⟨.origin, "message_error"⟩])
    | some (w1, cid, c) =>
      if ¬ (c.participants.any (fun q => decide (q.1 = senderId) && q.2)) then
        (w1, [⟨.origin, "message_error"⟩])
      else
        let msg : Message := Message.preSave true
          { chat := cid, sender := senderId, type := ty
            text := if ty = .text then content else none
            mediaUrl :=
              match media with
              | some (fname, b64) => some (saveMediaFile fsWrite fname b64)
              | none => none
            status := .sending, deliveredTo := [], readBy := [], isDeleted := false }
        let c1 : ChatDoc := { c with lastMessage := some freshMsgId, updatedAt := now }
        ({ w1 with
            messages := mapSet w1.messages freshMsgId msg
            chats := mapSet w1.chats cid c1 },
         [⟨.room cid, "new_message"⟩, ⟨.origin, "message_sent"⟩])

/-- The message_delivered handler: silent without authentication or a known
message; otherwise the raw deliveredTo update plus a notification to the
sender socket when one is registered. -/
def shMessageDelivered (w : SHWorld) (socketId : SocketId) (auth : Option UserId)
    (messageId : MessageId) (now : Time) : SHWorld × List SHEvent :=
  match auth with
  | none => (w, [])
  | some userId =>
    match mapGet w.messages messageId with
    | none => (w, [])
    | some msg =>
      let w1 : SHWorld :=
        { w with messages := mapSet w.messages messageId (rawDeliveredUpdate now userId msg) }
      match mapGet w.userSockets msg.sender with
      | none => (w1, [])
      | some senderSocketId => (w1, [⟨.socket senderSocketId, "message_delivered"⟩])

/-- The message_read handler: silent without authentication or a known
message; otherwise the raw timestamped readBy $addToSet plus a notification
to the sender socket when one is registered. -/
def shMessageRead (w : SHWorld) (socketId : SocketId) (auth : Option UserId)
    (messageId : MessageId) (now : Time) : SHWorld × List SHEvent :=
  match auth with
  | none => (w, [])
  | some userId =>
    match mapGet w.messages messageId with
    | none => (w, [])
    | some msg =>
      let w1 : SHWorld :=
        { w with messages := mapSet w.messages messageId (rawReadUpdate now userId msg) }
      match mapGet w.userSockets msg.sender with
      | none => (w1, [])
      | some senderSocketId => (w1, [⟨.socket senderSocketId, "message_read"⟩])

/-- The typing_start handler: a room broadcast, only when authenticated. -/
def shTypingStart (w : SHWorld) (socketId : SocketId) (auth : Option UserId)
    (chatId : Option ChatId) : SHWorld × List SHEvent :=
  match auth, chatId with
  | some _, some cid => (w, [⟨.room cid, "user_typing"⟩])
  | _, _ => (w, [])

/-- The typing_stop handler: a room broadcast, only when authenticated. -/
def shTypingStop (w : SHWorld) (socketId : SocketId) (auth : Option UserId)
    (chatId : Option ChatId) : SHWorld × List SHEvent :=
  match auth, chatId with
  | some _, some cid => (w, [⟨.room cid, "user_typing"⟩])
  | _, _ => (w, [])

/-- The disconnect handler of the socketHandler: delete the whole mapping
recorded for the socket's user id, drop the cached chat set, mark the user
offline, and broadcast the presence change. -/
def shDisconnect (w : SHWorld) (socketId : SocketId) (auth : Option UserId) :
    SHWorld × List SHEvent :=
  match auth with
  | none => (w, [])
  | some userId =>
    ({ w with
        userSockets := mapDel w.userSockets userId
        userChats := mapDel w.userChats userId
        usersOnline := mapSet w.usersOnline userId false },
     [⟨.broadcast, "user_offline"⟩])

/-! ### Helper lemmas -/

theorem applyMsgOp_rank_mono (m : Message) (op : MsgOp) :
    m.status.rank ≤ (applyMsgOp m op).status.rank := by
  cases op with
  | save isNew =>
    simp only [applyMsgOp, Message.preSave]
    split
    · next h => rw [h.2]; simp [MessageStatus.rank]
    · exact le_refl _
  | markDelivered u t =>
    simp only [applyMsgOp, Message.markAsDelivered]
    split
    · exact le_refl _
    · by_cases h : m.status = .sent
      · simp [h, MessageStatus.rank]
      · simp [h]
  | markRead u t =>
    simp only [applyMsgOp, Message.markAsRead]
    split
    · exact le_refl _
    · cases m.status <;> simp [MessageStatus.rank]

theorem applyMsgOp_read_fixed (m : Message) (op : MsgOp) (h : m.status = .read) :
    (applyMsgOp m op).status = .read := by
  cases op with
  | save isNew =>
    simp [applyMsgOp, Message.preSave, h]
  | markDelivered u t =>
    simp only [applyMsgOp, Message.markAsDelivered]
    split
    · exact h
    · simp [h]
  | markRead u t =>
    simp only [applyMsgOp, Message.markAsRead]
    split
    · exact h
    · simp

theorem countAck_eq_zero_of_not_any (u : UserId) (l : List Ack)
    (h : l.any (fun d => decide (d.user = u)) = false) : countAck u l = 0 := by
  have hall := List.any_eq_false.mp h
  simp only [countAck, List.length_eq_zero, List.filter_eq_nil_iff]
  intro a ha
  exact hall a ha

theorem countAck_append_self (u : UserId) (l : List Ack) (t : Time) :
    countAck u (l ++ [⟨u, t⟩]) = countAck u l + 1 := by
  simp [countAck, List.filter_append]

/-! ### Claim theorems -/

/-- C6: under every sequence of creation/save, MarkDelivered and MarkRead
operations by any users, a message status only advances along the ladder
sending < sent < delivered < read, and once read it stays read. -/
theorem message_status_monotonic (ops : List MsgOp) (m : Message) :
    m.status.rank ≤ (applyMsgOps m ops).status.rank
    ∧ (m.status = .read → (applyMsgOps m ops).status = .read) := by
  induction ops generalizing m with
  | nil => exact ⟨le_refl _, fun h => h⟩
  | cons op rest ih =>
    have h1 := applyMsgOp_rank_mono m op
    have h2 := ih (applyMsgOp m op)
    simp only [applyMsgOps, List.foldl_cons] at *
    exact ⟨le_trans h1 h2.1, fun hr => h2.2 (applyMsgOp_read_fixed m op hr)⟩

/-- Witness for C6 at a concrete message and operation list. -/
theorem message_status_monotonic_witness :
    (⟨1, 2, .text, some "hi", none, .read, [], [⟨3, 5⟩], false⟩ : Message).status
      = MessageStatus.read
    ∧ (applyMsgOps ⟨1, 2, .text, some "hi", none, .read, [], [⟨3, 5⟩], false⟩
        [.markDelivered 4 6, .save true, .markRead 9 7]).status = MessageStatus.read
    ∧ (⟨1, 2, .text, some "hi", none, .read, [], [⟨3, 5⟩], false⟩ : Message).status.rank
      ≤ (applyMsgOps ⟨1, 2, .text, some "hi", none, .read, [], [⟨3, 5⟩], false⟩
        [.markDelivered 4 6, .save true, .markRead 9 7]).status.rank :=
  ⟨by decide,
   (message_status_monotonic [.markDelivered 4 6, .save true, .markRead 9 7]
     ⟨1, 2, .text, some "hi", none, .read, [], [⟨3, 5⟩], false⟩).2 (by decide),
   (message_status_monotonic [.markDelivered 4 6, .save true, .markRead 9 7]
     ⟨1, 2, .text, some "hi", none, .read, [], [⟨3, 5⟩], false⟩).1⟩

/-- C7: for a call ended via endCall, when answerTime is set and the clock
has not gone backwards the duration is the floor of the answer-to-end delta
in seconds, and it is never negative; when answerTime is unset the duration
stays at its schema default of zero. -/
theorem end_call_duration (c : Call) (now : Time) (h0 : c.duration = 0) :
    (∀ a : Time, c.answerTime = some a → a ≤ now →
        (c.endCall now).duration = (now - a).fdiv 1000 ∧ 0 ≤ (c.endCall now).duration)
    ∧ (c.answerTime = none → (c.endCall now).duration = 0) := by
  constructor
  · intro a ha hle
    refine ⟨by simp [Call.endCall, ha], ?_⟩
    have hnn : (0 : Int) ≤ now - a := sub_nonneg.mpr hle
    have hfd := Int.fdiv_nonneg hnn (by norm_num : (0 : Int) ≤ 1000)
    simpa [Call.endCall, ha] using hfd
  · intro ha
    simp [Call.endCall, ha, h0]

/-- Witness for C7 at a concrete answered call. -/
theorem end_call_duration_witness :
    (⟨0, 1, .voice, .answered, 0, some 1000, none, 0, some 7, true⟩ : Call).duration = 0
    ∧ (⟨0, 1, .voice, .answered, 0, some 1000, none, 0, some 7, true⟩ : Call).answerTime
        = some 1000
    ∧ ((⟨0, 1, .voice, .answered, 0, some 1000, none, 0, some 7, true⟩ : Call).endCall
        5000).duration = (5000 - 1000 : Int).fdiv 1000
    ∧ 0 ≤ ((⟨0, 1, .voice, .answered, 0, some 1000, none, 0, some 7, true⟩ : Call).endCall
        5000).duration :=
  ⟨rfl, rfl,
   ((end_call_duration ⟨0, 1, .voice, .answered, 0, some 1000, none, 0, some 7, true⟩
      5000 rfl).1 1000 rfl (by decide)).1,
   ((end_call_duration ⟨0, 1, .voice, .answered, 0, some 1000, none, 0, some 7, true⟩
      5000 rfl).1 1000 rfl (by decide)).2⟩

/-- C5 amended: the Message model methods markAsDelivered and markAsRead,
used by the main socket message handlers, are idempotent per user and keep
each user at most once in the ack-sets; the parallel socket handler
message_read path instead appends a fresh timestamped entry (see the
counterexample theorem). -/
theorem mark_ack_idempotent (m : Message) (u : UserId) (t1 t2 : Time) :
    Message.markAsDelivered t2 u (Message.markAsDelivered t1 u m)
      = Message.markAsDelivered t1 u m
    ∧ Message.markAsRead t2 u (Message.markAsRead t1 u m) = Message.markAsRead t1 u m
    ∧ (countAck u m.deliveredTo ≤ 1 →
        countAck u (Message.markAsDelivered t1 u m).deliveredTo ≤ 1)
    ∧ (countAck u m.readBy ≤ 1 → countAck u (Message.markAsRead t1 u m).readBy ≤ 1) := by
  refine ⟨?_, ?_, ?_, ?_⟩
  · by_cases h : m.deliveredTo.any (fun d => decide (d.user = u)) = true
    · simp [Message.markAsDelivered, h]
    · have h2 : ((m.deliveredTo ++ [Ack.mk u t1]).any (fun d => decide (d.user = u))) = true := by
        simp [List.any_append]
      simp [Message.markAsDelivered, h, h2]
  · by_cases h : m.readBy.any (fun r => decide (r.user = u)) = true
    · simp [Message.markAsRead, h]
    · have h2 : ((m.readBy ++ [Ack.mk u t1]).any (fun r => decide (r.user = u))) = true := by
        simp [List.any_append]
      simp [Message.markAsRead, h, h2]
  · intro hle
    by_cases h : m.deliveredTo.any (fun d => decide (d.user = u)) = true
    · simpa [Message.markAsDelivered, h] using hle
    · have h0 := countAck_eq_zero_of_not_any u m.deliveredTo (by simpa using h)
      simp [Message.markAsDelivered, h, countAck_append_self, h0]
  · intro hle
    by_cases h : m.readBy.any (fun r => decide (r.user = u)) = true
    · simpa [Message.markAsRead, h] using hle
    · have h0 := countAck_eq_zero_of_not_any u m.readBy (by simpa using h)
      simp [Message.markAsRead, h, countAck_append_self, h0]

/-- Witness for C5 at a concrete message. -/
theorem mark_ack_idempotent_witness :
    countAck 7 (⟨0, 1, .text, none, none, .sent, [], [], false⟩ : Message).readBy ≤ 1
    ∧ Message.markAsRead 9 7 (Message.markAsRead 4 7 ⟨0, 1, .text, none, none, .sent, [], [], false⟩)
        = Message.markAsRead 4 7 ⟨0, 1, .text, none, none, .sent, [], [], false⟩
    ∧ countAck 7 (Message.markAsRead 4 7
        ⟨0, 1, .text, none, none, .sent, [], [], false⟩).readBy ≤ 1 :=
  ⟨by decide,
   (mark_ack_idempotent ⟨0, 1, .text, none, none, .sent, [], [], false⟩ 7 4 9).2.1,
   (mark_ack_idempotent ⟨0, 1, .text, none, none, .sent, [], [], false⟩ 7 4 9).2.2.2 (by decide)⟩

/-- C5 counterexample: the socket handler message_read path adds a fresh
timestamped readBy element per event, so two reads by user 7 at different
times leave the user twice in the ack-set and the second application is not
a no-op. -/
theorem raw_read_update_not_idempotent :
    countAck 7 ((rawReadUpdate 2 7 (rawReadUpdate 1 7
        ⟨0, 1, .text, none, none, .sent, [], [], false⟩)).readBy) = 2
    ∧ rawReadUpdate 2 7 (rawReadUpdate 1 7 ⟨0, 1, .text, none, none, .sent, [], [], false⟩)
        ≠ rawReadUpdate 1 7 ⟨0, 1, .text, none, none, .sent, [], [], false⟩ := by
  decide

/-- C10: saveMediaFile stores every buffer under a sanitized name in which
every character outside the allowed class is replaced by an underscore, so
the stored path holds no client-controlled path separator; the returned path
is exactly /uploads/ followed by that name, and a filesystem failure yields
null instead of an exception. -/
theorem save_media_file_safe (fsWrite : String → String → Option Unit)
    (filename buf : String) :
    (sanitizeFilename filename).data.all allowedChar = true
    ∧ ('/' ∉ (sanitizeFilename filename).data ∧ '\\' ∉ (sanitizeFilename filename).data)
    ∧ (saveMediaFile fsWrite filename buf = none ∨
        saveMediaFile fsWrite filename buf = some ("/uploads/" ++ sanitizeFilename filename))
    ∧ (fsWrite ("uploads/" ++ sanitizeFilename filename) buf = none →
        saveMediaFile fsWrite filename buf = none) := by
  have hall : ∀ c ∈ (sanitizeFilename filename).data, allowedChar c = true := by
    intro c hc
    simp only [sanitizeFilename, String.data] at hc
    obtain ⟨a, -, ha⟩ := List.mem_map.mp hc
    by_cases h : allowedChar a = true
    · rw [if_pos h] at ha
      exact ha ▸ h
    · rw [if_neg h] at ha
      exact ha ▸ (by decide)
  refine ⟨List.all_eq_true.mpr (fun c hc => hall c hc), ⟨?_, ?_⟩, ?_, ?_⟩
  · intro hmem
    have := hall _ hmem
    simp [allowedChar] at this
  · intro hmem
    have := hall _ hmem
    simp [allowedChar] at this
  · cases hw : fsWrite ("uploads/" ++ sanitizeFilename filename) buf with
    | none => exact Or.inl (by simp [saveMediaFile, hw])
    | some u => exact Or.inr (by simp [saveMediaFile, hw])
  · intro hw
    simp [saveMediaFile, hw]

/-- Witness for C10 at a concrete filename containing a space and a slash. -/
theorem save_media_file_safe_witness :
    ('/' ∉ (sanitizeFilename "a b/c.png").data ∧ '\\' ∉ (sanitizeFilename "a b/c.png").data)
    ∧ saveMediaFile (fun _ _ => none) "a b/c.png" "zz" = none
    ∧ sanitizeFilename "a b/c.png" = "a_b_c.png" :=
  ⟨(save_media_file_safe (fun _ _ => none) "a b/c.png" "zz").2.1,
   (save_media_file_safe (fun _ _ => none) "a b/c.png" "zz").2.2.2 rfl,
   by decide⟩

/-- C9: every inbound socketHandler event handler invoked on a socket with
no authenticated identity leaves the whole world (registries, rooms and
persisted collections) unchanged and emits, at most, an error to the
originating socket. -/
theorem unauthenticated_handlers_inert
    (w : SHWorld) (socketId : SocketId) (chatId : Option ChatId)
    (content : Option String) (ty : MessageType) (media : Option (String × String))
    (receiverId : Option UserId) (freshMsgId : MessageId) (freshChatId : ChatId)
    (now : Time) (fsWrite : String → String → Option Unit) (messageId : MessageId) :
    ((shJoinChat w socketId none chatId).1 = w
      ∧ (shJoinChat w socketId none chatId).2.all
          (fun e => decide (e.target = SHTarget.origin)) = true)
    ∧ ((shLeaveChat w socketId none chatId).1 = w
      ∧ (shLeaveChat w socketId none chatId).2.all
          (fun e => decide (e.target = SHTarget.origin)) = true)
    ∧ ((shSendMessage w socketId none chatId content ty media receiverId freshMsgId
          freshChatId now fsWrite).1 = w
      ∧ (shSendMessage w socketId none chatId content ty media receiverId freshMsgId
          freshChatId now fsWrite).2.all
          (fun e => decide (e.target = SHTarget.origin)) = true)
    ∧ ((shMessageDelivered w socketId none messageId now).1 = w
      ∧ (shMessageDelivered w socketId none messageId now).2.all
          (fun e => decide (e.target = SHTarget.origin)) = true)
    ∧ ((shMessageRead w socketId none messageId now).1 = w
      ∧ (shMessageRead w socketId none messageId now).2.all
          (fun e => decide (e.target = SHTarget.origin)) = true)
    ∧ ((shTypingStart w socketId none chatId).1 = w
      ∧ (shTypingStart w socketId none chatId).2.all
          (fun e => decide (e.target = SHTarget.origin)) = true)
    ∧ ((shTypingStop w socketId none chatId).1 = w
      ∧ (shTypingStop w socketId none chatId).2.all
          (fun e => decide (e.target = SHTarget.origin)) = true) := by
  refine ⟨⟨rfl, rfl⟩, ?_, ⟨rfl, rfl⟩, ⟨rfl, rfl⟩, ⟨rfl, rfl⟩, ?_, ?_⟩
  · cases chatId <;> exact ⟨rfl, rfl⟩
  · cases chatId <;> exact ⟨rfl, rfl⟩
  · cases chatId <;> exact ⟨rfl, rfl⟩

/-- C2 amended: the Session Registry maps a user to at most one socket:
any successful authentication overwrites the mapping for that user with the
authenticating socket, and the disconnect handler of any socket bound to a
user removes that user from the registry entirely. -/
theorem session_registry_single_mapping (w : SHWorld) (s s2 : SocketId) (u : UserId)
    (t : String) :
    mapGet ((shAuthenticate w s u (some t) (fun _ => some ⟨u⟩)).1).userSockets u = some s
    ∧ mapGet ((shDisconnect w s2 (some u)).1).userSockets u = none := by
  constructor
  · simp [shAuthenticate, mapGet_mapSet_self]
  · simp [shDisconnect, mapGet_mapDel_self]

/-- C2 counterexample: after user 7 authenticates socket 100 and then
socket 101, the registry no longer holds the first mapping (displacement),
and a disconnect of socket 100 erases the mapping even though it points at
the still-live socket 101. -/
theorem second_auth_displaces_first :
    mapGet ((shAuthenticate
        ((shAuthenticate ⟨[], [], [], [], [], []⟩ 100 7 (some "tk")
          (fun _ => some ⟨7⟩)).1) 101 7 (some "tk") (fun _ => some ⟨7⟩)).1).userSockets 7
      ≠ some 100
    ∧ mapGet ((shAuthenticate
        ((shAuthenticate ⟨[], [], [], [], [], []⟩ 100 7 (some "tk")
          (fun _ => some ⟨7⟩)).1) 101 7 (some "tk") (fun _ => some ⟨7⟩)).1).userSockets 7
      = some 101
    ∧ mapGet ((shDisconnect ((shAuthenticate
        ((shAuthenticate ⟨[], [], [], [], [], []⟩ 100 7 (some "tk")
          (fun _ => some ⟨7⟩)).1) 101 7 (some "tk") (fun _ => some ⟨7⟩)).1)
        100 (some 7)).1).userSockets 7 = none := by
  refine ⟨?_, rfl, rfl⟩
  intro h
  simp [shAuthenticate, shDisconnect, mapGet, mapSet, mapDel, userActiveChatIds,
    List.find?] at h

/-- C3 amended: the REST answer route succeeds exactly when the requester is
the receiver of a known call whose status is ringing, failing notFound /
notYourCall / invalidState otherwise with the collection untouched; the
socket answer_call handler enforces neither condition (see the
counterexample theorem). -/
theorem rest_answer_guards (db : CallDb) (now : Time) (callId : CallId) (userId : UserId) :
    (dbFind db callId = none → restAnswerCall db now callId userId = .error .notFound)
    ∧ (∀ c : Call, dbFind db callId = some c →
        (c.receiver ≠ userId → restAnswerCall db now callId userId = .error .notYourCall)
        ∧ (c.receiver = userId → c.status ≠ .ringing →
            restAnswerCall db now callId userId = .error .invalidState)
        ∧ (c.receiver = userId → c.status = .ringing →
            restAnswerCall db now callId userId
              = .ok (dbReplace db callId (c.answerCall now))
            ∧ (c.answerCall now).status = .answered)) := by
  constructor
  · intro h
    simp [restAnswerCall, h]
  · intro c hc
    refine ⟨?_, ?_, ?_⟩
    · intro hne
      simp [restAnswerCall, hc, hne]
    · intro hrecv hst
      simp [restAnswerCall, hc, hrecv, hst]
    · intro hrecv hst
      exact ⟨by simp [restAnswerCall, hc, hrecv, hst], by simp [Call.answerCall]⟩

/-- Witness for C3 at a concrete ringing call answered by its receiver. -/
theorem rest_answer_guards_witness :
    dbFind [(5, ⟨0, 1, .voice, .ringing, 0, none, none, 0, some 9, true⟩)] 5
        = some ⟨0, 1, .voice, .ringing, 0, none, none, 0, some 9, true⟩
    ∧ restAnswerCall [(5, ⟨0, 1, .voice, .ringing, 0, none, none, 0, some 9, true⟩)] 3 5 1
        = .ok (dbReplace [(5, ⟨0, 1, .voice, .ringing, 0, none, none, 0, some 9, true⟩)] 5
            ((⟨0, 1, .voice, .ringing, 0, none, none, 0, some 9, true⟩ : Call).answerCall 3)) :=
  ⟨by decide,
   (((rest_answer_guards [(5, ⟨0, 1, .voice, .ringing, 0, none, none, 0, some 9, true⟩)]
      3 5 1).2 ⟨0, 1, .voice, .ringing, 0, none, none, 0, some 9, true⟩
      (by decide)).2.2 rfl rfl).1⟩

/-- C3 counterexample: the socket answer_call handler lets the caller's own
socket answer call 5 (the acting user is the caller, not the receiver):
the call transitions to answered and the state changes, where the claim
demands a NotYourCall failure leaving the call unchanged. -/
theorem socket_answer_unguarded :
    mapGet ((chAnswerCall
        ⟨[(0, 100), (1, 101)], [(5, ⟨100, 101⟩)],
          [(5, ⟨0, 1, .voice, .ringing, 0, none, none, 0, some 9, true⟩)],
          [(0, true), (1, true)]⟩ 100 5 3).1.calls) 5
      = some ((⟨0, 1, .voice, .ringing, 0, none, none, 0, some 9, true⟩ : Call).answerCall 3)
    ∧ ((⟨0, 1, .voice, .ringing, 0, none, none, 0, some 9, true⟩ : Call).answerCall 3).status
      = CallStatus.answered
    ∧ (chAnswerCall
        ⟨[(0, 100), (1, 101)], [(5, ⟨100, 101⟩)],
          [(5, ⟨0, 1, .voice, .ringing, 0, none, none, 0, some 9, true⟩)],
          [(0, true), (1, true)]⟩ 100 5 3).1
      ≠ ⟨[(0, 100), (1, 101)], [(5, ⟨100, 101⟩)],
          [(5, ⟨0, 1, .voice, .ringing, 0, none, none, 0, some 9, true⟩)],
          [(0, true), (1, true)]⟩ := by
  decide

/-- C4 amended: the REST initiate route never consults the Session Registry,
so for an existing active receiver with no live session (and no busy party)
it succeeds, creating the call in status initiating with a generated link
token; and the socket authenticate handler never touches the call collection
or the active-call registry, so such a call is not rung automatically when
the receiver later connects. The socket initiate_call handler instead
rejects offline receivers outright (see the counterexample theorem). -/
theorem rest_initiate_offline_receiver (users : UserDb) (db : CallDb) (freshId : CallId)
    (tok : Nat) (now : Time) (callerId receiverId : UserId) (ty : CallType)
    (st : CHState) (socketId : SocketId) (uid : UserId) (token : Option String)
    (verify : String → Option TokenPayload)
    (hself : callerId ≠ receiverId)
    (hrecv : mapGet users receiverId = some true)
    (hc : getActiveCall db callerId = none)
    (hr : getActiveCall db receiverId = none) :
    (∃ c : Call,
        restInitiateCall users db freshId tok now callerId receiverId ty
          = .ok (db ++ [(freshId, c)], c)
        ∧ c.status = .initiating ∧ c.linkToken = some tok)
    ∧ (chAuthenticate st socketId uid token verify).1.calls = st.calls
    ∧ (chAuthenticate st socketId uid token verify).1.activeCalls = st.activeCalls := by
  refine ⟨?_, ?_, ?_⟩
  · refine ⟨Call.preValidate tok
      { caller := callerId, receiver := receiverId, type := ty
        status := .initiating, startTime := now, answerTime := none
        endTime := none, duration := 0, linkToken := none, isActive := true }, ?_, ?_, ?_⟩
    · simp [restInitiateCall, hself, hrecv, hc, hr]
    · simp [Call.preValidate]
    · simp [Call.preValidate]
  · cases token with
    | none => rfl
    | some t =>
      cases hv : verify t with
      | none => simp [chAuthenticate, hv]
      | some d =>
        by_cases hd : d.userId ≠ uid
        · simp [chAuthenticate, hv, hd]
        · simp [chAuthenticate, hv, hd]
  · cases token with
    | none => rfl
    | some t =>
      cases hv : verify t with
      | none => simp [chAuthenticate, hv]
      | some d =>
        by_cases hd : d.userId ≠ uid
        · simp [chAuthenticate, hv, hd]
        · simp [chAuthenticate, hv, hd]

/-- Witness for C4: receiver 1 is an active account, nobody is busy, and no
session state is involved at all; the REST initiate succeeds. -/
theorem rest_initiate_offline_receiver_witness :
    (0 : UserId) ≠ (1 : UserId)
    ∧ mapGet [((1 : UserId), true)] 1 = some true
    ∧ getActiveCall [] 0 = none
    ∧ getActiveCall [] 1 = none
    ∧ (∃ c : Call,
        restInitiateCall [(1, true)] [] 10 70 1000 0 1 .voice = .ok ([] ++ [(10, c)], c)
        ∧ c.status = .initiating ∧ c.linkToken = some 70)
    ∧ (chAuthenticate ⟨[], [], [], []⟩ 100 1 (some "tk") (fun _ => some ⟨1⟩)).1.calls
        = (⟨[], [], [], []⟩ : CHState).calls :=
  ⟨by decide, by decide, by decide, by decide,
   (rest_initiate_offline_receiver [(1, true)] [] 10 70 1000 0 1 .voice
      ⟨[], [], [], []⟩ 100 1 (some "tk") (fun _ => some ⟨1⟩)
      (by decide) (by decide) (by decide) (by decide)).1,
   (rest_initiate_offline_receiver [(1, true)] [] 10 70 1000 0 1 .voice
      ⟨[], [], [], []⟩ 100 1 (some "tk") (fun _ => some ⟨1⟩)
      (by decide) (by decide) (by decide) (by decide)).2.1⟩

theorem activeCallsFor_append_single (db : CallDb) (e : CallId × Call) (u : UserId) :
    activeCallsFor (db ++ [e]) u = activeCallsFor db u ++ activeCallsFor [e] u := by
  simp [activeCallsFor, List.filter_append]

theorem preValidate_fields (tok : Nat) (c : Call) :
    (Call.preValidate tok c).caller = c.caller
    ∧ (Call.preValidate tok c).receiver = c.receiver
    ∧ (Call.preValidate tok c).status = c.status
    ∧ (Call.preValidate tok c).isActive = c.isActive := by
  unfold Call.preValidate
  split <;> simp

theorem atMostOneActive_register (db : CallDb) (fid : CallId) (c : Call)
    (hc : activeCallsFor db c.caller = [])
    (hr : activeCallsFor db c.receiver = [])
    (hInv : atMostOneActive db) :
    atMostOneActive (db ++ [(fid, c)]) := by
  intro u
  rw [activeCallsFor_append_single]
  by_cases hp : ((decide (c.caller = u) || decide (c.receiver = u))
      && c.status.nonTerminal && c.isActive) = true
  · have hmatch : c.caller = u ∨ c.receiver = u := by
      have hp2 := hp
      simp only [Bool.and_eq_true, Bool.or_eq_true, decide_eq_true_eq] at hp2
      exact hp2.1.1
    have hdb : activeCallsFor db u = [] := by
      rcases hmatch with h | h
      · exact h ▸ hc
      · exact h ▸ hr
    have hone : activeCallsFor [(fid, c)] u = [(fid, c)] := by
      simp only [activeCallsFor, List.filter, hp]
    rw [hdb, hone]
    simp
  · have hzero : activeCallsFor [(fid, c)] u = [] := by
      simp only [activeCallsFor, List.filter, hp]
    rw [hzero]
    simpa using hInv u

/-- C1 amended: the REST initiate route enforces the busy invariant — it
fails as soon as getActiveCall finds a non-terminal call for the caller or
for the receiver, and a successful initiate preserves
at-most-one-non-terminal-call-per-user over the call collection; the socket
initiate_call handler performs no such check, so the bound is violated on
states it can reach (see the counterexample theorem). -/
theorem rest_initiate_busy_invariant (users : UserDb) (db : CallDb) (freshId : CallId)
    (tok : Nat) (now : Time) (callerId receiverId : UserId) (ty : CallType)
    (hself : callerId ≠ receiverId)
    (hrecv : mapGet users receiverId = some true) :
    (∀ x, getActiveCall db callerId = some x →
        restInitiateCall users db freshId tok now callerId receiverId ty
          = .error .callerBusy)
    ∧ (getActiveCall db callerId = none →
        ∀ x, getActiveCall db receiverId = some x →
        restInitiateCall users db freshId tok now callerId receiverId ty
          = .error .receiverBusy)
    ∧ (getActiveCall db callerId = none → getActiveCall db receiverId = none →
        atMostOneActive db →
        ∃ c : Call,
          restInitiateCall users db freshId tok now callerId receiverId ty
            = .ok (db ++ [(freshId, c)], c)
          ∧ c.status = .initiating
          ∧ atMostOneActive (db ++ [(freshId, c)])) := by
  refine ⟨?_, ?_, ?_⟩
  · intro x hx
    simp [restInitiateCall, hself, hrecv, hx]
  · intro hc x hx
    simp [restInitiateCall, hself, hrecv, hc, hx]
  · intro hc hr hInv
    refine ⟨Call.preValidate tok
      { caller := callerId, receiver := receiverId, type := ty
        status := .initiating, startTime := now, answerTime := none
        endTime := none, duration := 0, linkToken := none, isActive := true },
      by simp [restInitiateCall, hself, hrecv, hc, hr],
      by simp [Call.preValidate], ?_⟩
    refine atMostOneActive_register db freshId _ ?_ ?_ hInv
    · rw [(preValidate_fields tok _).1]
      exact (getActiveCall_eq_none_iff db callerId).mp hc
    · rw [(preValidate_fields tok _).2.1]
      exact (getActiveCall_eq_none_iff db receiverId).mp hr

/-- Witness for C1: caller 0 is already in ringing call 5 with user 1; a
REST initiate towards user 2 fails callerBusy. -/
theorem rest_initiate_busy_invariant_witness :
    (0 : UserId) ≠ (2 : UserId)
    ∧ mapGet [((1 : UserId), true), (2, true)] 2 = some true
    ∧ getActiveCall [(5, ⟨0, 1, .voice, .ringing, 0, none, none, 0, some 9, true⟩)] 0
        = some (5, ⟨0, 1, .voice, .ringing, 0, none, none, 0, some 9, true⟩)
    ∧ restInitiateCall [(1, true), (2, true)]
        [(5, ⟨0, 1, .voice, .ringing, 0, none, none, 0, some 9, true⟩)]
        10 70 1000 0 2 .voice
      = .error .callerBusy :=
  ⟨by decide, by decide, by decide,
   (rest_initiate_busy_invariant [(1, true), (2, true)]
      [(5, ⟨0, 1, .voice, .ringing, 0, none, none, 0, some 9, true⟩)]
      10 70 1000 0 2 .voice (by decide) (by decide)).1
     (5, ⟨0, 1, .voice, .ringing, 0, none, none, 0, some 9, true⟩) (by decide)⟩

/-- C1 counterexample: via the socket initiate_call handler, user 0 — already
party to the non-terminal ringing call 10 with user 1 — initiates another
call towards online user 2; no busy failure is emitted (the events are the
success pair) and afterwards the collection holds two non-terminal calls
with user 0 as caller, while the in-memory registry holds both entries. -/
theorem socket_initiate_no_busy_check :
    (activeCallsFor (chInitiateCall
        (chInitiateCall ⟨[(0, 100), (1, 101), (2, 102)], [], [],
          [(0, true), (1, true), (2, true)]⟩ 100 (some 0) 1 .voice 10 70 1000).1
        100 (some 0) 2 .voice 11 71 2000).1.calls 0).length = 2
    ∧ (chInitiateCall
        (chInitiateCall ⟨[(0, 100), (1, 101), (2, 102)], [], [],
          [(0, true), (1, true), (2, true)]⟩ 100 (some 0) 1 .voice 10 70 1000).1
        100 (some 0) 2 .voice 11 71 2000).2
      = [CHEvent.incomingCall 102 11, CHEvent.callInitiated 100 11]
    ∧ ((chInitiateCall
        (chInitiateCall ⟨[(0, 100), (1, 101), (2, 102)], [], [],
          [(0, true), (1, true), (2, true)]⟩ 100 (some 0) 1 .voice 10 70 1000).1
        100 (some 0) 2 .voice 11 71 2000).1.activeCalls).length = 2 := by
  decide

/-- C4 counterexample: via the socket initiate_call handler, caller 0 calls
receiver 1 who has no live session; the handler emits a call error saying
the user is offline and creates no call record at all, where the claim
demands success with a call in status initiating. -/
theorem socket_initiate_fails_offline :
    chInitiateCall ⟨[(0, 100)], [], [], [(0, true)]⟩ 100 (some 0) 1 .voice 10 70 1000
      = (⟨[(0, 100)], [], [], [(0, true)]⟩, [CHEvent.callError 100 "User is offline"]) := by
  decide

theorem chDisconnectStep_calls_ne (now : Time) (s : SocketId)
    (acc : CHState × List CHEvent) (e : CallId × CallInfo) (cid : CallId)
    (h : e.1 ≠ cid) :
    mapGet (chDisconnectStep now s acc e).1.calls cid = mapGet acc.1.calls cid := by
  unfold chDisconnectStep
  by_cases hm : e.2.callerSocket = s ∨ e.2.receiverSocket = s
  · simp only [if_pos hm]
    cases hg : mapGet acc.1.calls e.1 with
    | none => simp
    | some call =>
      by_cases hst : call.status = CallStatus.answered
      · simp [hst, mapGet_mapSet_ne _ _ _ _ (Ne.symm h)]
      · simp [hst]
  · simp only [if_neg hm]

theorem chDisconnectStep_active_ne (now : Time) (s : SocketId)
    (acc : CHState × List CHEvent) (e : CallId × CallInfo) (cid : CallId)
    (h : e.1 ≠ cid) :
    mapGet (chDisconnectStep now s acc e).1.activeCalls cid
      = mapGet acc.1.activeCalls cid := by
  unfold chDisconnectStep
  by_cases hm : e.2.callerSocket = s ∨ e.2.receiverSocket = s
  · simp only [if_pos hm]
    cases hg : mapGet acc.1.calls e.1 with
    | none => simp [mapGet_mapDel_ne _ _ _ (Ne.symm h)]
    | some call =>
      by_cases hst : call.status = CallStatus.answered
      · simp [hst, mapGet_mapDel_ne _ _ _ (Ne.symm h)]
      · simp [hst, mapGet_mapDel_ne _ _ _ (Ne.symm h)]
  · simp only [if_neg hm]

theorem chDisconnectStep_events_mono (now : Time) (s : SocketId)
    (acc : CHState × List CHEvent) (e : CallId × CallInfo) :
    ∃ l, (chDisconnectStep now s acc e).2 = acc.2 ++ l := by
  unfold chDisconnectStep
  by_cases hm : e.2.callerSocket = s ∨ e.2.receiverSocket = s
  · refine ⟨[CHEvent.callEnded
      (if e.2.callerSocket = s then e.2.receiverSocket else e.2.callerSocket)
      e.1 (some "User disconnected")], ?_⟩
    simp only [if_pos hm]
  · exact ⟨[], by simp only [if_neg hm, List.append_nil]⟩

theorem foldl_chDisconnectStep_calls_ne (now : Time) (s : SocketId)
    (L : List (CallId × CallInfo)) (acc : CHState × List CHEvent) (cid : CallId)
    (h : ∀ e ∈ L, e.1 ≠ cid) :
    mapGet (L.foldl (chDisconnectStep now s) acc).1.calls cid
      = mapGet acc.1.calls cid := by
  induction L generalizing acc with
  | nil => rfl
  | cons e rest ih =>
    rw [List.foldl_cons, ih _ (fun x hx => h x (List.mem_cons_of_mem e hx))]
    exact chDisconnectStep_calls_ne now s acc e cid (h e (List.mem_cons_self e rest))

theorem foldl_chDisconnectStep_active_ne (now : Time) (s : SocketId)
    (L : List (CallId × CallInfo)) (acc : CHState × List CHEvent) (cid : CallId)
    (h : ∀ e ∈ L, e.1 ≠ cid) :
    mapGet (L.foldl (chDisconnectStep now s) acc).1.activeCalls cid
      = mapGet acc.1.activeCalls cid := by
  induction L generalizing acc with
  | nil => rfl
  | cons e rest ih =>
    rw [List.foldl_cons, ih _ (fun x hx => h x (List.mem_cons_of_mem e hx))]
    exact chDisconnectStep_active_ne now s acc e cid (h e (List.mem_cons_self e rest))

theorem foldl_chDisconnectStep_events_mono (now : Time) (s : SocketId)
    (L : List (CallId × CallInfo)) (acc : CHState × List CHEvent) :
    ∃ l, (L.foldl (chDisconnectStep now s) acc).2 = acc.2 ++ l := by
  induction L generalizing acc with
  | nil => exact ⟨[], by simp⟩
  | cons e rest ih =>
    obtain ⟨l1, h1⟩ := chDisconnectStep_events_mono now s acc e
    obtain ⟨l2, h2⟩ := ih (chDisconnectStep now s acc e)
    exact ⟨l1 ++ l2, by rw [List.foldl_cons, h2, h1, List.append_assoc]⟩

theorem chDisconnectStep_hit (now : Time) (s : SocketId)
    (acc : CHState × List CHEvent) (cid : CallId) (info : CallInfo) (c : Call)
    (hmatch : info.callerSocket = s ∨ info.receiverSocket = s)
    (hdb : mapGet acc.1.calls cid = some c) :
    mapGet (chDisconnectStep now s acc (cid, info)).1.calls cid
        = some (if c.status = CallStatus.answered then c.endCall now else c)
    ∧ mapGet (chDisconnectStep now s acc (cid, info)).1.activeCalls cid = none
    ∧ (chDisconnectStep now s acc (cid, info)).2
        = acc.2 ++ [CHEvent.callEnded
            (if info.callerSocket = s then info.receiverSocket else info.callerSocket)
            cid (some "User disconnected")] := by
  unfold chDisconnectStep
  simp only [if_pos hmatch, hdb]
  by_cases hst : c.status = CallStatus.answered
  · simp [hst, mapGet_mapSet_self, mapGet_mapDel_self]
  · simp [hst, hdb, mapGet_mapDel_self]

theorem disconnect_fold_spec (now : Time) (s : SocketId)
    (L1 L2 : List (CallId × CallInfo)) (acc : CHState × List CHEvent)
    (cid : CallId) (info : CallInfo) (c : Call)
    (h1 : ∀ e ∈ L1, e.1 ≠ cid) (h2 : ∀ e ∈ L2, e.1 ≠ cid)
    (hmatch : info.callerSocket = s ∨ info.receiverSocket = s)
    (hdb : mapGet acc.1.calls cid = some c) :
    mapGet ((L1 ++ (cid, info) :: L2).foldl
        (chDisconnectStep now s) acc).1.activeCalls cid = none
    ∧ mapGet ((L1 ++ (cid, info) :: L2).foldl (chDisconnectStep now s) acc).1.calls cid
        = some (if c.status = CallStatus.answered then c.endCall now else c)
    ∧ CHEvent.callEnded
        (if info.callerSocket = s then info.receiverSocket else info.callerSocket)
        cid (some "User disconnected")
      ∈ ((L1 ++ (cid, info) :: L2).foldl (chDisconnectStep now s) acc).2 := by
  rw [List.foldl_append, List.foldl_cons]
  have hA1 : mapGet (L1.foldl (chDisconnectStep now s) acc).1.calls cid = some c := by
    rw [foldl_chDisconnectStep_calls_ne now s L1 acc cid h1]
    exact hdb
  have hhit := chDisconnectStep_hit now s
    (L1.foldl (chDisconnectStep now s) acc) cid info c hmatch hA1
  obtain ⟨l, hev⟩ := foldl_chDisconnectStep_events_mono now s L2
    (chDisconnectStep now s (L1.foldl (chDisconnectStep now s) acc) (cid, info))
  refine ⟨?_, ?_, ?_⟩
  · rw [foldl_chDisconnectStep_active_ne now s L2 _ cid h2]
    exact hhit.2.1
  · rw [foldl_chDisconnectStep_calls_ne now s L2 _ cid h2]
    exact hhit.1
  · rw [hev, hhit.2.2]
    simp

/-- C8 amended: when a socket bound to a user disconnects, every activeCalls
entry holding that socket is removed from the registry and the other
participant socket is sent a call-ended notification with reason, but the
persisted Call record is stamped ended only when its status is answered;
a call still in initiating or ringing keeps its persisted status. -/
theorem disconnect_cleanup (st : CHState) (s : SocketId) (u : UserId) (now : Time)
    (cid : CallId) (info : CallInfo) (c : Call)
    (hnodup : (st.activeCalls.map Prod.fst).Nodup)
    (hmem : (cid, info) ∈ st.activeCalls)
    (hmatch : info.callerSocket = s ∨ info.receiverSocket = s)
    (hdb : mapGet st.calls cid = some c) :
    mapGet (chDisconnect st s (some u) now).1.activeCalls cid = none
    ∧ mapGet (chDisconnect st s (some u) now).1.calls cid
        = some (if c.status = CallStatus.answered then c.endCall now else c)
    ∧ CHEvent.callEnded
        (if info.callerSocket = s then info.receiverSocket else info.callerSocket)
        cid (some "User disconnected") ∈ (chDisconnect st s (some u) now).2 := by
  obtain ⟨L1, L2, hL⟩ := List.append_of_mem hmem
  have hkeys2 : (L1.map Prod.fst ++ cid :: L2.map Prod.fst).Nodup := by
    have := hL ▸ hnodup
    simpa using this
  have hnd := List.nodup_append.mp hkeys2
  have h1 : ∀ e ∈ L1, e.1 ≠ cid := by
    intro e he heq
    exact hnd.2.2 (List.mem_map_of_mem Prod.fst he)
      (heq ▸ List.mem_cons_self cid (L2.map Prod.fst))
  have h2 : ∀ e ∈ L2, e.1 ≠ cid := by
    intro e he heq
    exact (List.nodup_cons.mp hnd.2.1).1 (heq ▸ List.mem_map_of_mem Prod.fst he)
  have hspec := disconnect_fold_spec now s L1 L2
    ({ st with userSockets := mapDel st.userSockets u
               usersOnline := mapSet st.usersOnline u false }, [])
    cid info c h1 h2 hmatch hdb
  have hfold : st.activeCalls.foldl (chDisconnectStep now s)
        ({ st with userSockets := mapDel st.userSockets u
                   usersOnline := mapSet st.usersOnline u false }, [])
      = (L1 ++ (cid, info) :: L2).foldl (chDisconnectStep now s)
        ({ st with userSockets := mapDel st.userSockets u
                   usersOnline := mapSet st.usersOnline u false }, []) :=
    congrArg (fun L => L.foldl (chDisconnectStep now s)
      ({ st with userSockets := mapDel st.userSockets u
                 usersOnline := mapSet st.usersOnline u false }, [])) hL
  refine ⟨?_, ?_, ?_⟩
  · show mapGet ((st.activeCalls.foldl (chDisconnectStep now s)
        ({ st with userSockets := mapDel st.userSockets u
                   usersOnline := mapSet st.usersOnline u false }, [])).1).activeCalls cid
      = none
    rw [hfold]
    exact hspec.1
  · show mapGet ((st.activeCalls.foldl (chDisconnectStep now s)
        ({ st with userSockets := mapDel st.userSockets u
                   usersOnline := mapSet st.usersOnline u false }, [])).1).calls cid
      = some (if c.status = CallStatus.answered then c.endCall now else c)
    rw [hfold]
    exact hspec.2.1
  · show CHEvent.callEnded
        (if info.callerSocket = s then info.receiverSocket else info.callerSocket)
        cid (some "User disconnected")
      ∈ (st.activeCalls.foldl (chDisconnectStep now s)
          ({ st with userSockets := mapDel st.userSockets u
                     usersOnline := mapSet st.usersOnline u false }, [])).2
        ++ [CHEvent.userOffline u]
    rw [hfold]
    exact List.mem_append_left _ hspec.2.2

/-- Witness for C8 at a concrete answered call whose caller disconnects. -/
theorem disconnect_cleanup_witness :
    (([(5, CallInfo.mk 100 101)].map Prod.fst).Nodup
      ∧ ((5 : CallId), CallInfo.mk 100 101) ∈ [((5 : CallId), CallInfo.mk 100 101)]
      ∧ ((CallInfo.mk 100 101).callerSocket = 100
          ∨ (CallInfo.mk 100 101).receiverSocket = 100)
      ∧ mapGet [(5, (⟨0, 1, .voice, .answered, 0, some 1000, none, 0, some 9, true⟩ : Call))] 5
          = some ⟨0, 1, .voice, .answered, 0, some 1000, none, 0, some 9, true⟩)
    ∧ mapGet (chDisconnect
        ⟨[(0, 100), (1, 101)], [(5, CallInfo.mk 100 101)],
          [(5, ⟨0, 1, .voice, .answered, 0, some 1000, none, 0, some 9, true⟩)],
          [(0, true), (1, true)]⟩ 100 (some 0) 9000).1.activeCalls 5 = none
    ∧ mapGet (chDisconnect
        ⟨[(0, 100), (1, 101)], [(5, CallInfo.mk 100 101)],
          [(5, ⟨0, 1, .voice, .answered, 0, some 1000, none, 0, some 9, true⟩)],
          [(0, true), (1, true)]⟩ 100 (some 0) 9000).1.calls 5
      = some (if (⟨0, 1, .voice, .answered, 0, some 1000, none, 0, some 9, true⟩ : Call).status
            = CallStatus.answered
          then (⟨0, 1, .voice, .answered, 0, some 1000, none, 0, some 9, true⟩ : Call).endCall 9000
          else ⟨0, 1, .voice, .answered, 0, some 1000, none, 0, some 9, true⟩)
    ∧ CHEvent.callEnded
        (if (CallInfo.mk 100 101).callerSocket = 100 then (CallInfo.mk 100 101).receiverSocket
         else (CallInfo.mk 100 101).callerSocket) 5 (some "User disconnected")
      ∈ (chDisconnect
        ⟨[(0, 100), (1, 101)], [(5, CallInfo.mk 100 101)],
          [(5, ⟨0, 1, .voice, .answered, 0, some 1000, none, 0, some 9, true⟩)],
          [(0, true), (1, true)]⟩ 100 (some 0) 9000).2 :=
  ⟨⟨by decide, by decide, by decide, by decide⟩,
   (disconnect_cleanup
      ⟨[(0, 100), (1, 101)], [(5, CallInfo.mk 100 101)],
        [(5, ⟨0, 1, .voice, .answered, 0, some 1000, none, 0, some 9, true⟩)],
        [(0, true), (1, true)]⟩ 100 0 9000 5 (CallInfo.mk 100 101)
      ⟨0, 1, .voice, .answered, 0, some 1000, none, 0, some 9, true⟩
      (by decide) (by decide) (by decide) (by decide)).1,
   (disconnect_cleanup
      ⟨[(0, 100), (1, 101)], [(5, CallInfo.mk 100 101)],
        [(5, ⟨0, 1, .voice, .answered, 0, some 1000, none, 0, some 9, true⟩)],
        [(0, true), (1, true)]⟩ 100 0 9000 5 (CallInfo.mk 100 101)
      ⟨0, 1, .voice, .answered, 0, some 1000, none, 0, some 9, true⟩
      (by decide) (by decide) (by decide) (by decide)).2.1,
   (disconnect_cleanup
      ⟨[(0, 100), (1, 101)], [(5, CallInfo.mk 100 101)],
        [(5, ⟨0, 1, .voice, .answered, 0, some 1000, none, 0, some 9, true⟩)],
        [(0, true), (1, true)]⟩ 100 0 9000 5 (CallInfo.mk 100 101)
      ⟨0, 1, .voice, .answered, 0, some 1000, none, 0, some 9, true⟩
      (by decide) (by decide) (by decide) (by decide)).2.2⟩

/-- C8 counterexample: caller 0 disconnects while call 5 is still ringing;
the entry leaves the registry and the other side is notified, but the
persisted record keeps status ringing — it is not force-transitioned to
ended as the claim demands. -/
theorem disconnect_leaves_ringing_unstamped :
    mapGet (chDisconnect
        ⟨[(0, 100), (1, 101)], [(5, CallInfo.mk 100 101)],
          [(5, ⟨0, 1, .voice, .ringing, 0, none, none, 0, some 9, true⟩)],
          [(0, true), (1, true)]⟩ 100 (some 0) 9000).1.calls 5
      = some ⟨0, 1, .voice, .ringing, 0, none, none, 0, some 9, true⟩
    ∧ (⟨0, 1, .voice, .ringing, 0, none, none, 0, some 9, true⟩ : Call).status
      = CallStatus.ringing
    ∧ mapGet (chDisconnect
        ⟨[(0, 100), (1, 101)], [(5, CallInfo.mk 100 101)],
          [(5, ⟨0, 1, .voice, .ringing, 0, none, none, 0, some 9, true⟩)],
          [(0, true), (1, true)]⟩ 100 (some 0) 9000).1.activeCalls 5 = none := by
  decide

end Chatterbox
